import Mathlib

/-!
Verification of the multi-turn tool-calling orchestration engine of the
`mcp-client` repository (Go).  The Go source is shallowly embedded: pure
functions become Lean functions, the conversation manager's mutable message
slice becomes explicit state passing, and the external collaborators
(`json.Unmarshal` of argument payloads, the MCP tool executor
`RunSingleCommand`, the HTTP transport and the JSON decoding of chat
responses) become function parameters, so every theorem quantifies over
their behaviour.

Source files embedded here:
* `internal/openai` function-call manager (`FunctionDefinition`, `ToolCall`,
  `ToolCallResult`, `ExecuteFunction`, `ExecuteFunctions`,
  `convertJSONSchemaToOpenAI`, `convertPropertySchema`);
* `internal/openai` conversation manager (`ChatMessage`, `ChatResponse`,
  `AddUserMessage`, `ProcessMessage`, `sendChatRequest`,
  `handleFunctionCalls`, `GetConversationHistory`, `ClearConversation`);
* `internal/openai/analyst.go` (`StartNewConversation`, `setupSystemContext`).
-/

set_option maxRecDepth 10000

namespace McpClient

/-- Go `FunctionDetails`: function name and raw (serialized) arguments. -/
structure FunctionDetails where
  name : String
  arguments : String
  deriving DecidableEq, Repr

/-- Go `ToolCall`: a function call requested by the model.  `ty` embeds the
Go field `Type`. -/
structure ToolCall where
  id : String
  ty : String
  function : FunctionDetails
  deriving DecidableEq, Repr

/-- Go `ToolCallResult`: the result of one tool execution. -/
structure ToolCallResult where
  toolCallID : String
  role : String
  content : String
  deriving DecidableEq, Repr

/-- Go `FunctionDefinition`, restricted to the `Name` field, which is the
only field `ExecuteFunction` reads (the `Parameters` payload is produced by
the schema translator, modelled separately below). -/
structure FunctionDefinition where
  name : String
  deriving DecidableEq, Repr

/-- One fragment of an `mcp.CallToolResult`'s `Content` slice: either an
`*mcp.TextContent` carrying text, or any other content kind (which the Go
code ignores). -/
inductive MCPContent where
  | text (s : String)
  | other
  deriving DecidableEq, Repr

/-- Go `mcp.CallToolResult`, restricted to the `Content` slice, the only
field `ExecuteFunction` reads. -/
structure CallToolResult where
  content : List MCPContent
  deriving DecidableEq, Repr

/-- The content-extraction loop of `ExecuteFunction` (part_001 lines
187-193): start from the empty string and, for each fragment, append the
text plus a newline when the fragment is textual, else leave the
accumulator unchanged. -/
def extractText (fragments : List MCPContent) : String :=
  fragments.foldl
    (fun acc c =>
      match c with
      | .text s => acc ++ s ++ "\n"
      | .other => acc)
    ""

/-- `ExecuteFunction` (part_001 lines 158-200).  External collaborators are
parameters: `p` embeds `json.Unmarshal` on the raw argument payload
(returning the parsed arguments of type `α`, Go `map[string]any`, or the
error text), and `e` embeds `mcpExecutor.RunSingleCommand`.  The Go return
`(*ToolCallResult, error)` becomes `Except String ToolCallResult`. -/
def ExecuteFunction {α : Type} (p : String → Except String α)
    (e : String → α → Except String CallToolResult)
    (fns : List FunctionDefinition) (functionCall : ToolCall) :
    Except String ToolCallResult :=
  match p functionCall.function.arguments with
  | .error err => .error ("failed to parse function arguments: " ++ err)
  | .ok arguments =>
    if fns.any (fun fn => fn.name == functionCall.function.name) then
      match e functionCall.function.name arguments with
      | .error err =>
        .ok { toolCallID := functionCall.id
              role := "tool"
              content := "Error executing " ++ functionCall.function.name
                ++ ": " ++ err }
      | .ok result =>
        .ok { toolCallID := functionCall.id
              role := "tool"
              content := extractText result.content }
    else
      .error ("unknown function: " ++ functionCall.function.name)

/-- `ExecuteFunctions` (part_001 lines 203-221): execute every call in
order; when `ExecuteFunction` returns an error, append an error result for
that call instead; always return a nil error (here: always `.ok`). -/
def ExecuteFunctions {α : Type} (p : String → Except String α)
    (e : String → α → Except String CallToolResult)
    (fns : List FunctionDefinition) (functionCalls : List ToolCall) :
    Except String (List ToolCallResult) :=
  .ok (functionCalls.map
    (fun call =>
      match ExecuteFunction p e fns call with
      | .error err =>
        { toolCallID := call.id
          role := "tool"
          content := "Function execution failed: " ++ err }
      | .ok result => result))

/-- Go `ChatMessage` (part_000 lines 26-35): role, optional content,
tool-call requests, answered call id, and the legacy `FunctionCall` field. -/
structure ChatMessage where
  role : String
  content : Option String
  toolCalls : List ToolCall
  toolCallID : String
  functionCall : Option FunctionDetails
  deriving DecidableEq, Repr

/-- One element of Go `ChatResponse.Choices`. -/
structure Choice where
  message : ChatMessage
  finishReason : String
  deriving DecidableEq, Repr

/-- The `Error` payload of Go `ChatResponse` (`message` and `type`). -/
structure APIError where
  message : String
  ty : String
  deriving DecidableEq, Repr

/-- Go `ChatResponse` (part_000 lines 37-46). -/
structure ChatResponse where
  choices : List Choice
  error : Option APIError
  deriving DecidableEq, Repr

/-- An HTTP response as `sendChatRequest` sees it: the status code and the
raw body.  The body is kept abstract (a `String`); its JSON decoding is a
function parameter. -/
structure HTTPResponse where
  statusCode : Nat
  body : String
  deriving DecidableEq, Repr

/-- `sendChatRequest` (part_000 lines 175-226).  `apiKey` embeds
`os.Getenv("OPENAI_API_KEY")`; `transport` embeds the outcome of
`http.DefaultClient.Do` (errors from `json.Marshal` and `http.NewRequest`
are also transport-level `.error` events); `decode` embeds
`json.NewDecoder(resp.Body).Decode` into a `ChatResponse` (`none` = decode
failure).  The Go code reads only the decoded body: the status code of a
received `HTTPResponse` is never inspected. -/
def sendChatRequest (apiKey : String) (transport : Except String HTTPResponse)
    (decode : String → Option ChatResponse) : Except String ChatResponse :=
  if apiKey = "" then
    .error "OPENAI_API_KEY not set"
  else
    match transport with
    | .error err => .error err
    | .ok resp =>
      match decode resp.body with
      | none => .error "failed to decode response body"
      | some result =>
        match result.error with
        | some apiErr => .error ("OpenAI API error: " ++ apiErr.message)
        | none => .ok result

/-- `AddUserMessage` (part_000 lines 134-139): append a user message whose
other fields are Go zero values. -/
def AddUserMessage (messages : List ChatMessage) (content : String) :
    List ChatMessage :=
  messages ++ [{ role := "user", content := some content, toolCalls := [],
                 toolCallID := "", functionCall := none }]

/-- The `ChatMessage` appended for one `ToolCallResult` by
`handleFunctionCalls` (part_000 lines 237-243). -/
def toolResultMessage (result : ToolCallResult) : ChatMessage :=
  { role := result.role, content := some result.content, toolCalls := [],
    toolCallID := result.toolCallID, functionCall := none }

/-- `handleFunctionCalls` (part_000 lines 229-271).  The conversation
manager's mutable `cm.messages` slice is passed and returned explicitly;
the chat-completion transport is a `script`: one entry per
`sendChatRequest` call made, each entry being that call's outcome (an
exhausted script models a transport that fails every further request).
Returns the Go pair `(string, error)` as `Except String String`, paired
with the final message history. -/
def handleFunctionCalls {α : Type} (p : String → Except String α)
    (e : String → α → Except String CallToolResult)
    (fns : List FunctionDefinition) :
    List (Except String ChatResponse) → List ToolCall → List ChatMessage →
    Except String String × List ChatMessage
  | script, toolCalls, messages =>
    match ExecuteFunctions p e fns toolCalls with
    | .error err => (.error ("failed to execute functions: " ++ err), messages)
    | .ok results =>
      let messages1 := messages ++ results.map toolResultMessage
      match script with
      | [] => (.error "failed to get final response: transport unavailable",
               messages1)
      | outcome :: rest =>
        match outcome with
        | .error err =>
          (.error ("failed to get final response: " ++ err), messages1)
        | .ok response =>
          match response.choices with
          | [] => (.error "no final response from OpenAI", messages1)
          | choice :: _ =>
            let messages2 := messages1 ++ [choice.message]
            if 0 < choice.message.toolCalls.length then
              handleFunctionCalls p e fns rest choice.message.toolCalls
                messages2
            else
              match choice.message.content with
              | some c => (.ok c, messages2)
              | none => (.error "no content in final response", messages2)

/-- `ProcessMessage` (part_000 lines 142-172), with the same conventions as
`handleFunctionCalls`: the user message is appended first, then the first
script entry is consumed as the outcome of the initial `sendChatRequest`. -/
def ProcessMessage {α : Type} (p : String → Except String α)
    (e : String → α → Except String CallToolResult)
    (fns : List FunctionDefinition)
    (script : List (Except String ChatResponse))
    (messages : List ChatMessage) (userMessage : String) :
    Except String String × List ChatMessage :=
  let messages1 := AddUserMessage messages userMessage
  match script with
  | [] => (.error "failed to send chat request: transport unavailable",
           messages1)
  | outcome :: rest =>
    match outcome with
    | .error err => (.error ("failed to send chat request: " ++ err), messages1)
    | .ok response =>
      match response.choices with
      | [] => (.error "no response from OpenAI", messages1)
      | choice :: _ =>
        let messages2 := messages1 ++ [choice.message]
        if 0 < choice.message.toolCalls.length then
          handleFunctionCalls p e fns rest choice.message.toolCalls messages2
        else
          match choice.message.content with
          | some c => (.ok c, messages2)
          | none => (.error "no content in response", messages2)

/-- `GetConversationHistory` (part_000 lines 274-276). -/
def GetConversationHistory (messages : List ChatMessage) : List ChatMessage :=
  messages

/-- `ClearConversation` (part_000 lines 279-281): reset to a fresh empty
slice. -/
def ClearConversation (_messages : List ChatMessage) : List ChatMessage :=
  []

/-- `AddSystemMessage` (part_000 lines 126-131). -/
def AddSystemMessage (messages : List ChatMessage) (content : String) :
    List ChatMessage :=
  messages ++ [{ role := "system", content := some content, toolCalls := [],
                 toolCallID := "", functionCall := none }]

/-- `setupSystemContext` (analyst.go lines 28-63): add the analyst's system
prompt to the conversation.  The prompt is the fixed string literal of
analyst.go lines 29-60; its text plays no role in any property proved here,
so it is passed as a parameter. -/
def setupSystemContext (messages : List ChatMessage) (systemPrompt : String) :
    List ChatMessage :=
  AddSystemMessage messages systemPrompt

/-- `StartNewConversation` (analyst.go lines 166-169): clear the
conversation history, then re-apply the system context. -/
def StartNewConversation (messages : List ChatMessage)
    (systemPrompt : String) : List ChatMessage :=
  setupSystemContext (ClearConversation messages) systemPrompt

/-- A JSON value, the model of Go `interface{}` values stored in the
`map[string]interface{}` built by the schema translator.  Objects and the
top-level parameter maps are association lists in insertion order. -/
inductive JValue where
  | str (s : String)
  | num (n : Int)
  | boolean (b : Bool)
  | null
  | arr (elems : List JValue)
  | obj (fields : List (String × JValue))

/-- Go `jsonschema.Schema`, restricted to the fields the translator reads:
`Type`, `Properties` (a nilable map from property name to a nested schema,
modelled as an optional association list), `Required`, `Description`, and
`Default` (nilable raw JSON bytes, modelled as an optional raw string). -/
inductive JSONSchema where
  | mk (ty : String) (properties : Option (List (String × JSONSchema)))
      (required : List String) (description : String)
      (defaultRaw : Option String)

/-- The `Type` field. -/
def JSONSchema.ty : JSONSchema → String
  | .mk t _ _ _ _ => t

/-- The `Properties` field. -/
def JSONSchema.properties : JSONSchema → Option (List (String × JSONSchema))
  | .mk _ ps _ _ _ => ps

/-- The `Required` field. -/
def JSONSchema.required : JSONSchema → List String
  | .mk _ _ r _ _ => r

/-- The `Description` field. -/
def JSONSchema.description : JSONSchema → String
  | .mk _ _ _ d _ => d

/-- The `Default` field. -/
def JSONSchema.defaultRaw : JSONSchema → Option String
  | .mk _ _ _ _ dv => dv

/-- `convertPropertySchema` (part_001 lines 125-143).  `unmarshal` embeds
`json.Unmarshal` on the raw default bytes (`none` = parse failure). -/
def convertPropertySchema (unmarshal : String → Option JValue)
    (schema : JSONSchema) : List (String × JValue) :=
  let property := [("type", JValue.str schema.ty)]
  let property :=
    if schema.description ≠ "" then
      property ++ [("description", JValue.str schema.description)]
    else property
  match schema.defaultRaw with
  | none => property
  | some raw =>
    match unmarshal raw with
    | some defaultValue => property ++ [("default", defaultValue)]
    | none => property

/-- `convertJSONSchemaToOpenAI` (part_001 lines 97-122).  The Go input is a
`*jsonschema.Schema`; the nil pointer is `none`. -/
def convertJSONSchemaToOpenAI (unmarshal : String → Option JValue)
    (schema : Option JSONSchema) : List (String × JValue) :=
  match schema with
  | none => [("type", JValue.str "object"), ("properties", JValue.obj [])]
  | some s =>
    let result := [("type", JValue.str s.ty)]
    let result :=
      match s.properties with
      | none => result
      | some props =>
        result ++ [("properties",
          JValue.obj (props.map
            (fun pr => (pr.1, JValue.obj (convertPropertySchema unmarshal pr.2)))))]
    if 0 < s.required.length then
      result ++ [("required", JValue.arr (s.required.map JValue.str))]
    else result

/-- The three individual-call failure modes: malformed arguments (the
argument parser rejects the payload), unknown tool name (no catalog entry
matches), executor error (`RunSingleCommand` returns a non-nil error). -/
def callFails {α : Type} (p : String → Except String α)
    (e : String → α → Except String CallToolResult)
    (fns : List FunctionDefinition) (call : ToolCall) : Prop :=
  (∃ err, p call.function.arguments = .error err) ∨
  (fns.any (fun fn => fn.name == call.function.name) = false) ∨
  (∃ args err, p call.function.arguments = .ok args ∧
    e call.function.name args = .error err)

/-- The textual payload of one content fragment (`none` for fragments that
are not `*mcp.TextContent`). -/
def contentText : MCPContent → Option String
  | .text s => some s
  | .other => none

/-- Stated from the spec's words, for comparison with the loop
`extractText`: the concatenation of the given textual fragments, each
followed by a newline. -/
def specTextConcat (texts : List String) : String :=
  texts.foldr (fun s acc => s ++ "\n" ++ acc) ""

/-- The same schema with the `Default` field erased, used to state that an
unparsable default is dropped silently. -/
def JSONSchema.clearDefault : JSONSchema → JSONSchema
  | .mk t ps req desc _ => .mk t ps req desc none

/-- A response whose first choice requests at least one tool call (the
condition `len(choice.Message.ToolCalls) > 0` that makes the engine start a
call/continue cycle). -/
def respHasCalls (r : ChatResponse) : Prop :=
  ∃ choice rest, r.choices = choice :: rest ∧
    0 < choice.message.toolCalls.length

/-- The batch size of a response: how many tool calls its first choice
requests. -/
def respBatchSize (r : ChatResponse) : Nat :=
  match r.choices with
  | choice :: _ => choice.message.toolCalls.length
  | [] => 0

/-- A terminal text response: the first choice carries no tool calls and
plain content `c`. -/
def respFinalText (r : ChatResponse) (c : String) : Prop :=
  ∃ choice rest, r.choices = choice :: rest ∧
    choice.message.toolCalls = [] ∧ choice.message.content = some c

/-- The result list built by the loop of `ExecuteFunctions`, named so that
engine-level proofs can speak about it. -/
def execResults {α : Type} (p : String → Except String α)
    (e : String → α → Except String CallToolResult)
    (fns : List FunctionDefinition) (functionCalls : List ToolCall) :
    List ToolCallResult :=
  functionCalls.map
    (fun call =>
      match ExecuteFunction p e fns call with
      | .error err =>
        { toolCallID := call.id
          role := "tool"
          content := "Function execution failed: " ++ err }
      | .ok result => result)

/-! ## Theorems -/

/-! ## Helper lemmas -/

theorem string_append_ne_empty_left (s t : String) (h : s ≠ "") :
    s ++ t ≠ "" := by
  intro he
  apply h
  have hd := congrArg String.data he
  rw [String.data_append] at hd
  have hs : s.data = [] := (List.append_eq_nil.mp hd).1
  exact String.ext hs

theorem ExecuteFunction_parse_error {α : Type} (p : String → Except String α)
    (e : String → α → Except String CallToolResult)
    (fns : List FunctionDefinition) (call : ToolCall) (err : String)
    (h : p call.function.arguments = .error err) :
    ExecuteFunction p e fns call
      = .error ("failed to parse function arguments: " ++ err) := by
  simp [ExecuteFunction, h]

theorem ExecuteFunction_unknown {α : Type} (p : String → Except String α)
    (e : String → α → Except String CallToolResult)
    (fns : List FunctionDefinition) (call : ToolCall) (args : α)
    (h : p call.function.arguments = .ok args)
    (hu : fns.any (fun fn => fn.name == call.function.name) = false) :
    ExecuteFunction p e fns call
      = .error ("unknown function: " ++ call.function.name) := by
  simp [ExecuteFunction, h, hu]

theorem ExecuteFunction_exec_error {α : Type} (p : String → Except String α)
    (e : String → α → Except String CallToolResult)
    (fns : List FunctionDefinition) (call : ToolCall) (args : α) (err : String)
    (h : p call.function.arguments = .ok args)
    (hk : fns.any (fun fn => fn.name == call.function.name) = true)
    (he : e call.function.name args = .error err) :
    ExecuteFunction p e fns call
      = .ok { toolCallID := call.id, role := "tool",
              content := "Error executing " ++ call.function.name
                ++ ": " ++ err } := by
  simp [ExecuteFunction, h, hk, he]

theorem ExecuteFunction_exec_ok {α : Type} (p : String → Except String α)
    (e : String → α → Except String CallToolResult)
    (fns : List FunctionDefinition) (call : ToolCall) (args : α)
    (result : CallToolResult)
    (h : p call.function.arguments = .ok args)
    (hk : fns.any (fun fn => fn.name == call.function.name) = true)
    (he : e call.function.name args = .ok result) :
    ExecuteFunction p e fns call
      = .ok { toolCallID := call.id, role := "tool",
              content := extractText result.content } := by
  simp [ExecuteFunction, h, hk, he]

theorem ExecuteFunction_ok_id {α : Type} (p : String → Except String α)
    (e : String → α → Except String CallToolResult)
    (fns : List FunctionDefinition) (call : ToolCall) (r : ToolCallResult)
    (h : ExecuteFunction p e fns call = .ok r) :
    r.toolCallID = call.id ∧ r.role = "tool" := by
  cases hp : p call.function.arguments with
  | error err =>
    rw [ExecuteFunction_parse_error p e fns call err hp] at h
    exact Except.noConfusion h
  | ok args =>
    by_cases hk : fns.any (fun fn => fn.name == call.function.name) = true
    · cases he : e call.function.name args with
      | error err =>
        rw [ExecuteFunction_exec_error p e fns call args err hp hk he] at h
        cases h; exact ⟨rfl, rfl⟩
      | ok result =>
        rw [ExecuteFunction_exec_ok p e fns call args result hp hk he] at h
        cases h; exact ⟨rfl, rfl⟩
    · rw [ExecuteFunction_unknown p e fns call args hp (by simpa using hk)] at h
      exact Except.noConfusion h

/-- The per-call post-processing done inside the loop of
`ExecuteFunctions`: its result always carries the call's identifier and the
role `tool`. -/
theorem ExecuteFunctions_wrap_id {α : Type} (p : String → Except String α)
    (e : String → α → Except String CallToolResult)
    (fns : List FunctionDefinition) (call : ToolCall) :
    (match ExecuteFunction p e fns call with
      | .error err =>
        ({ toolCallID := call.id, role := "tool",
           content := "Function execution failed: " ++ err } : ToolCallResult)
      | .ok result => result).toolCallID = call.id := by
  cases h : ExecuteFunction p e fns call with
  | error err => simp
  | ok result => simpa using (ExecuteFunction_ok_id p e fns call result h).1

/-- C1: `ExecuteFunctions` returns exactly one `ToolCallResult` per input
call, in input order with no reordering, each result carrying the
identifier of its corresponding request, for every argument parser,
executor behaviour and catalog (so regardless of individual success or
failure, and a failing call never suppresses a later call's result). -/
theorem executeFunctions_one_result_per_call_in_order {α : Type}
    (p : String → Except String α)
    (e : String → α → Except String CallToolResult)
    (fns : List FunctionDefinition) (functionCalls : List ToolCall) :
    ∃ results, ExecuteFunctions p e fns functionCalls = .ok results ∧
      List.Forall₂
        (fun (r : ToolCallResult) (c : ToolCall) => r.toolCallID = c.id)
        results functionCalls := by
  refine ⟨_, rfl, ?_⟩
  rw [List.forall₂_map_left_iff]
  exact List.forall₂_same.mpr
    (fun call _ => ExecuteFunctions_wrap_id p e fns call)

theorem ExecuteFunctions_wrap_content_ne_empty {α : Type}
    (p : String → Except String α)
    (e : String → α → Except String CallToolResult)
    (fns : List FunctionDefinition) (call : ToolCall)
    (hf : callFails p e fns call) :
    (match ExecuteFunction p e fns call with
      | .error err =>
        ({ toolCallID := call.id, role := "tool",
           content := "Function execution failed: " ++ err } : ToolCallResult)
      | .ok result => result).content ≠ "" := by
  cases hp : p call.function.arguments with
  | error err =>
    rw [ExecuteFunction_parse_error p e fns call err hp]
    exact string_append_ne_empty_left _ _ (by decide)
  | ok args =>
    by_cases hk : fns.any (fun fn => fn.name == call.function.name) = true
    · cases he : e call.function.name args with
      | error err =>
        rw [ExecuteFunction_exec_error p e fns call args err hp hk he]
        exact string_append_ne_empty_left _ _
          (string_append_ne_empty_left _ _
            (string_append_ne_empty_left _ _ (by decide)))
      | ok result =>
        rcases hf with ⟨err, hperr⟩ | hu | ⟨args2, err, hpok, herr⟩
        · rw [hp] at hperr; exact Except.noConfusion hperr
        · rw [hk] at hu; exact Bool.noConfusion hu
        · rw [hp] at hpok
          cases hpok
          rw [he] at herr
          exact Except.noConfusion herr
    · rw [ExecuteFunction_unknown p e fns call args hp (by simpa using hk)]
      exact string_append_ne_empty_left _ _ (by decide)

/-- C2: the Function Call Manager has no fatal error path: for every batch
`ExecuteFunctions` returns with a nil error (here: always `.ok`), and every
individual failure mode (malformed arguments, unknown tool name, executor
error) is converted into a result whose `toolCallID` equals the request's
identifier and whose content is a non-empty error text. -/
theorem executeFunctions_no_fatal_error_path {α : Type}
    (p : String → Except String α)
    (e : String → α → Except String CallToolResult)
    (fns : List FunctionDefinition) (functionCalls : List ToolCall) :
    ∃ results, ExecuteFunctions p e fns functionCalls = .ok results ∧
      results.length = functionCalls.length ∧
      ∀ i (hc : i < functionCalls.length) (hr : i < results.length),
        results[i].toolCallID = functionCalls[i].id ∧
        (callFails p e fns functionCalls[i] → results[i].content ≠ "") := by
  refine ⟨_, rfl, by simp, ?_⟩
  intro i hc hr
  rw [List.getElem_map]
  exact ⟨ExecuteFunctions_wrap_id p e fns functionCalls[i],
    fun hf => ExecuteFunctions_wrap_content_ne_empty p e fns
      functionCalls[i] hf⟩

/-- Closed witness for C2: a batch with one malformed-argument call, one
unknown-name call and one executor failure still yields three results, the
first of which carries its request's identifier and non-empty error text. -/
theorem executeFunctions_no_fatal_error_path_witness :
    callFails
      (fun s => if s = "good" then Except.ok () else Except.error "bad json")
      (fun _ _ => Except.error "exec boom")
      [{ name := "known_tool" }]
      ⟨"id1", "function", ⟨"known_tool", "nonsense"⟩⟩ ∧
    ExecuteFunctions
      (fun s => if s = "good" then Except.ok () else Except.error "bad json")
      (fun _ _ => Except.error "exec boom")
      [{ name := "known_tool" }]
      [⟨"id1", "function", ⟨"known_tool", "nonsense"⟩⟩,
       ⟨"id2", "function", ⟨"mystery_tool", "good"⟩⟩,
       ⟨"id3", "function", ⟨"known_tool", "good"⟩⟩]
      = .ok
        [⟨"id1", "tool",
          "Function execution failed: failed to parse function arguments: bad json"⟩,
         ⟨"id2", "tool",
          "Function execution failed: unknown function: mystery_tool"⟩,
         ⟨"id3", "tool", "Error executing known_tool: exec boom"⟩] ∧
    ("Function execution failed: failed to parse function arguments: bad json"
      : String) ≠ "" := by
  have hfail : callFails
      (fun s => if s = "good" then Except.ok () else Except.error "bad json")
      (fun _ _ => Except.error "exec boom")
      [{ name := "known_tool" }]
      ⟨"id1", "function", ⟨"known_tool", "nonsense"⟩⟩ :=
    Or.inl ⟨"bad json", rfl⟩
  obtain ⟨results, heq, hlen, hall⟩ :=
    executeFunctions_no_fatal_error_path
      (fun s => if s = "good" then Except.ok () else Except.error "bad json")
      (fun _ _ => Except.error "exec boom")
      [{ name := "known_tool" }]
      [⟨"id1", "function", ⟨"known_tool", "nonsense"⟩⟩,
       ⟨"id2", "function", ⟨"mystery_tool", "good"⟩⟩,
       ⟨"id3", "function", ⟨"known_tool", "good"⟩⟩]
  have hconc : ExecuteFunctions
      (fun s => if s = "good" then Except.ok () else Except.error "bad json")
      (fun _ _ => Except.error "exec boom")
      [{ name := "known_tool" }]
      [⟨"id1", "function", ⟨"known_tool", "nonsense"⟩⟩,
       ⟨"id2", "function", ⟨"mystery_tool", "good"⟩⟩,
       ⟨"id3", "function", ⟨"known_tool", "good"⟩⟩]
      = .ok
        [⟨"id1", "tool",
          "Function execution failed: failed to parse function arguments: bad json"⟩,
         ⟨"id2", "tool",
          "Function execution failed: unknown function: mystery_tool"⟩,
         ⟨"id3", "tool", "Error executing known_tool: exec boom"⟩] := by
    rfl
  rw [hconc] at heq
  cases heq
  exact ⟨hfail, hconc, (hall 0 (by decide) (by decide)).2 hfail⟩

/-- C5 counterexample: on a call whose raw argument payload fails to
parse, `ExecuteFunction` does not produce a `ToolCallResult`; it returns
the parse failure to its caller as an error return. -/
theorem executeFunction_parse_error_counterexample :
    ExecuteFunction (fun _ => (Except.error "bad json" : Except String Unit))
      (fun _ _ => Except.error "unused") []
      ⟨"id1", "function", ⟨"some_tool", "notjson"⟩⟩
      = Except.error "failed to parse function arguments: bad json" := rfl

/-- C5 (amended): when a call's raw argument payload fails to parse,
`ExecuteFunction` propagates the parse error to its caller as an error
return; it is the batch-level `ExecuteFunctions` that converts that error
into a descriptive error result carrying the call's identifier, so the
conversation continues. -/
theorem executeFunction_parse_error_amended {α : Type}
    (p : String → Except String α)
    (e : String → α → Except String CallToolResult)
    (fns : List FunctionDefinition) (call : ToolCall) (err : String)
    (h : p call.function.arguments = .error err) :
    ExecuteFunction p e fns call
      = .error ("failed to parse function arguments: " ++ err) ∧
    ExecuteFunctions p e fns [call]
      = .ok [{ toolCallID := call.id, role := "tool",
               content := "Function execution failed: "
                 ++ ("failed to parse function arguments: " ++ err) }] := by
  constructor
  · exact ExecuteFunction_parse_error p e fns call err h
  · simp [ExecuteFunctions, ExecuteFunction_parse_error p e fns call err h]

/-- Closed witness for C5 (amended) at a concrete unparsable payload. -/
theorem executeFunction_parse_error_amended_witness :
    ExecuteFunction
      (fun _ => (Except.error "unexpected end of input" : Except String Unit))
      (fun _ _ => Except.error "unused") [{ name := "list_connections" }]
      ⟨"call-7", "function", ⟨"list_connections", "truncated"⟩⟩
      = .error
        ("failed to parse function arguments: " ++ "unexpected end of input") ∧
    ExecuteFunctions
      (fun _ => (Except.error "unexpected end of input" : Except String Unit))
      (fun _ _ => Except.error "unused") [{ name := "list_connections" }]
      [⟨"call-7", "function", ⟨"list_connections", "truncated"⟩⟩]
      = .ok [{ toolCallID := "call-7", role := "tool",
               content := "Function execution failed: "
                 ++ ("failed to parse function arguments: "
                   ++ "unexpected end of input") }] :=
  executeFunction_parse_error_amended
    (fun _ => (Except.error "unexpected end of input" : Except String Unit))
    (fun _ _ => Except.error "unused") [{ name := "list_connections" }]
    ⟨"call-7", "function", ⟨"list_connections", "truncated"⟩⟩
    "unexpected end of input" rfl

/-- C6 counterexample: a call whose tool name is unknown and whose raw
arguments also fail to parse yields a result whose text reports the parse
failure and does not name the unknown tool (the parse check precedes the
catalog check). -/
theorem unknown_tool_names_tool_counterexample :
    ExecuteFunctions
      (fun _ => (Except.error "syntax err" : Except String Unit))
      (fun _ _ => Except.error "unused") []
      [⟨"id9", "function", ⟨"ghost_tool", "broken"⟩⟩]
      = .ok [⟨"id9", "tool",
          "Function execution failed: failed to parse function arguments: syntax err"⟩] ∧
    ¬ ("ghost_tool".data <:+:
        ("Function execution failed: failed to parse function arguments: syntax err"
          : String).data) :=
  ⟨rfl, by decide⟩

/-- C6 (amended): for every call whose raw arguments parse successfully and
whose tool name is not in the catalog, the batch produces a result carrying
the call's identifier whose text names the unknown tool, and the executor
is never invoked (the outcome is identical under any two executors); if the
arguments also fail to parse, the parse failure takes precedence and the
result reports it instead (the executor is still not invoked). -/
theorem unknown_tool_names_tool_amended {α : Type}
    (p : String → Except String α)
    (e e2 : String → α → Except String CallToolResult)
    (fns : List FunctionDefinition) (call : ToolCall) (args : α)
    (hp : p call.function.arguments = .ok args)
    (hu : fns.any (fun fn => fn.name == call.function.name) = false) :
    ExecuteFunction p e fns call
      = .error ("unknown function: " ++ call.function.name) ∧
    ExecuteFunctions p e fns [call]
      = .ok [{ toolCallID := call.id, role := "tool",
               content := "Function execution failed: "
                 ++ ("unknown function: " ++ call.function.name) }] ∧
    call.function.name.data <:+:
      ("Function execution failed: "
        ++ ("unknown function: " ++ call.function.name)).data ∧
    ExecuteFunction p e fns call = ExecuteFunction p e2 fns call := by
  refine ⟨ExecuteFunction_unknown p e fns call args hp hu, ?_, ?_, ?_⟩
  · simp [ExecuteFunctions, ExecuteFunction_unknown p e fns call args hp hu]
  · rw [String.data_append, String.data_append]
    exact ((List.suffix_append _ _).trans (List.suffix_append _ _)).isInfix
  · rw [ExecuteFunction_unknown p e fns call args hp hu,
      ExecuteFunction_unknown p e2 fns call args hp hu]

/-- Closed witness for C6 (amended) at a concrete unknown tool name. -/
theorem unknown_tool_names_tool_amended_witness :
    ExecuteFunction (fun _ => (Except.ok () : Except String Unit))
      (fun _ _ => Except.ok { content := [.text "never runs"] })
      [{ name := "get_network_summary" }]
      ⟨"call-3", "function", ⟨"delete_everything", "ok"⟩⟩
      = .error ("unknown function: " ++ "delete_everything") ∧
    ExecuteFunctions (fun _ => (Except.ok () : Except String Unit))
      (fun _ _ => Except.ok { content := [.text "never runs"] })
      [{ name := "get_network_summary" }]
      [⟨"call-3", "function", ⟨"delete_everything", "ok"⟩⟩]
      = .ok [{ toolCallID := "call-3", role := "tool",
               content := "Function execution failed: "
                 ++ ("unknown function: " ++ "delete_everything") }] ∧
    ("delete_everything" : String).data <:+:
      ("Function execution failed: "
        ++ ("unknown function: " ++ "delete_everything")).data ∧
    ExecuteFunction (fun _ => (Except.ok () : Except String Unit))
      (fun _ _ => Except.ok { content := [.text "never runs"] })
      [{ name := "get_network_summary" }]
      ⟨"call-3", "function", ⟨"delete_everything", "ok"⟩⟩
      = ExecuteFunction (fun _ => (Except.ok () : Except String Unit))
          (fun _ _ => Except.error "a different executor")
          [{ name := "get_network_summary" }]
          ⟨"call-3", "function", ⟨"delete_everything", "ok"⟩⟩ :=
  unknown_tool_names_tool_amended
    (fun _ => (Except.ok () : Except String Unit))
    (fun _ _ => Except.ok { content := [.text "never runs"] })
    (fun _ _ => Except.error "a different executor")
    [{ name := "get_network_summary" }]
    ⟨"call-3", "function", ⟨"delete_everything", "ok"⟩⟩ () rfl (by decide)

theorem extractText_foldl_general (fragments : List MCPContent)
    (acc : String) :
    fragments.foldl
      (fun acc c =>
        match c with
        | MCPContent.text s => acc ++ s ++ "\n"
        | MCPContent.other => acc)
      acc
      = acc ++ specTextConcat (fragments.filterMap contentText) := by
  induction fragments generalizing acc with
  | nil => simp [specTextConcat, String.append_empty]
  | cons c fragments ih =>
    cases c with
    | text s =>
      simp only [List.foldl_cons, List.filterMap_cons, contentText,
        specTextConcat, List.foldr_cons, ih]
      simp [String.append_assoc]
    | other =>
      simpa [contentText] using ih acc

theorem extractText_eq_specTextConcat (fragments : List MCPContent) :
    extractText fragments
      = specTextConcat (fragments.filterMap contentText) := by
  have h := extractText_foldl_general fragments ""
  rw [extractText, h]
  cases hs : specTextConcat (fragments.filterMap contentText)
  rfl

/-- C10: on a successful executor invocation, the result's content equals
the concatenation of the textual content fragments of the executor's
result, each followed by a newline, with non-textual fragments ignored; in
particular, with zero textual fragments the success result's content is the
empty string. -/
theorem executor_success_content_concat {α : Type}
    (p : String → Except String α)
    (e : String → α → Except String CallToolResult)
    (fns : List FunctionDefinition) (call : ToolCall) (args : α)
    (result : CallToolResult)
    (hp : p call.function.arguments = .ok args)
    (hk : fns.any (fun fn => fn.name == call.function.name) = true)
    (he : e call.function.name args = .ok result) :
    ExecuteFunction p e fns call
      = .ok { toolCallID := call.id, role := "tool",
              content :=
                specTextConcat (result.content.filterMap contentText) } ∧
    (result.content.filterMap contentText = [] →
      ExecuteFunction p e fns call
        = .ok { toolCallID := call.id, role := "tool", content := "" }) := by
  have hmain : ExecuteFunction p e fns call
      = .ok { toolCallID := call.id, role := "tool",
              content :=
                specTextConcat (result.content.filterMap contentText) } := by
    rw [ExecuteFunction_exec_ok p e fns call args result hp hk he,
      extractText_eq_specTextConcat]
  refine ⟨hmain, fun hnone => ?_⟩
  rw [hmain, hnone]
  rfl

/-- Closed witness for C10: an executor returning one non-textual fragment
yields a successful result with empty content. -/
theorem executor_success_content_concat_witness :
    ExecuteFunction (fun _ => (Except.ok () : Except String Unit))
      (fun _ _ => Except.ok { content := [MCPContent.other] })
      [{ name := "analyze_patterns" }]
      ⟨"call-5", "function", ⟨"analyze_patterns", "ok"⟩⟩
      = .ok { toolCallID := "call-5", role := "tool",
              content :=
                specTextConcat
                  (([MCPContent.other] : List MCPContent).filterMap
                    contentText) } ∧
    ExecuteFunction (fun _ => (Except.ok () : Except String Unit))
      (fun _ _ => Except.ok { content := [MCPContent.other] })
      [{ name := "analyze_patterns" }]
      ⟨"call-5", "function", ⟨"analyze_patterns", "ok"⟩⟩
      = .ok { toolCallID := "call-5", role := "tool", content := "" } := by
  have h := executor_success_content_concat
    (fun _ => (Except.ok () : Except String Unit))
    (fun _ _ => Except.ok { content := [MCPContent.other] })
    [{ name := "analyze_patterns" }]
    ⟨"call-5", "function", ⟨"analyze_patterns", "ok"⟩⟩ ()
    { content := [MCPContent.other] } rfl (by decide) rfl
  exact ⟨h.1, h.2 rfl⟩

/-- C9: `ClearConversation` empties the history completely (no system
message is re-applied: `GetConversationHistory` returns the empty list),
and the analyst-level `StartNewConversation` is what re-applies the system
prompt, after which the history is exactly one system message. -/
theorem clearConversation_empty_startNew_one_system
    (messages : List ChatMessage) (systemPrompt : String) :
    GetConversationHistory (ClearConversation messages) = [] ∧
    StartNewConversation messages systemPrompt
      = [{ role := "system", content := some systemPrompt, toolCalls := [],
           toolCallID := "", functionCall := none }] ∧
    (StartNewConversation messages systemPrompt).length = 1 ∧
    ∀ m ∈ StartNewConversation messages systemPrompt, m.role = "system" := by
  refine ⟨rfl, rfl, rfl, ?_⟩
  intro m hm
  simp only [StartNewConversation, setupSystemContext, ClearConversation,
    AddSystemMessage, List.nil_append, List.mem_singleton] at hm
  rw [hm]

/-- Closed witness for C9 on a concrete non-empty history. -/
theorem clearConversation_empty_startNew_one_system_witness :
    GetConversationHistory
      (ClearConversation
        [{ role := "user", content := some "hello", toolCalls := [],
           toolCallID := "", functionCall := none }]) = [] ∧
    (StartNewConversation
      [{ role := "user", content := some "hello", toolCalls := [],
         toolCallID := "", functionCall := none }] "be an analyst").length
      = 1 := by
  have h := clearConversation_empty_startNew_one_system
    [{ role := "user", content := some "hello", toolCalls := [],
       toolCallID := "", functionCall := none }] "be an analyst"
  exact ⟨h.1, h.2.2.1⟩

/-- C8: the schema translator is a pure, total, deterministic function
(same catalog entry on every application); a nil input schema yields
exactly the parameters object with `type: object` and empty `properties`;
the `required` list is present in the output exactly when it is non-empty;
and a present but unparsable default value is dropped silently from the
property (the output equals the output for the schema without a default,
and carries no `default` key) rather than causing an error. -/
theorem schema_translator_total_deterministic
    (unmarshal : String → Option JValue) :
    (∀ schema : Option JSONSchema,
      convertJSONSchemaToOpenAI unmarshal schema
        = convertJSONSchemaToOpenAI unmarshal schema) ∧
    convertJSONSchemaToOpenAI unmarshal none
      = [("type", JValue.str "object"), ("properties", JValue.obj [])] ∧
    (∀ s : JSONSchema,
      (convertJSONSchemaToOpenAI unmarshal (some s)).any
        (fun kv => kv.1 == "required") = true ↔ s.required ≠ []) ∧
    (∀ (s : JSONSchema) (raw : String), s.defaultRaw = some raw →
      unmarshal raw = none →
      convertPropertySchema unmarshal s
        = convertPropertySchema unmarshal s.clearDefault ∧
      (convertPropertySchema unmarshal s).any
        (fun kv => kv.1 == "default") = false) := by
  refine ⟨fun _ => rfl, rfl, ?_, ?_⟩
  · intro s
    cases s with
    | mk t ps req desc dv =>
      cases ps with
      | none =>
        by_cases hreq : req = []
        · subst hreq
          simp [convertJSONSchemaToOpenAI, JSONSchema.required,
            JSONSchema.properties, JSONSchema.ty]
        · have hpos : 0 < req.length := List.length_pos.mpr hreq
          simp [convertJSONSchemaToOpenAI, JSONSchema.required,
            JSONSchema.properties, JSONSchema.ty, hpos, hreq]
      | some props =>
        by_cases hreq : req = []
        · subst hreq
          simp [convertJSONSchemaToOpenAI, JSONSchema.required,
            JSONSchema.properties, JSONSchema.ty]
        · have hpos : 0 < req.length := List.length_pos.mpr hreq
          simp [convertJSONSchemaToOpenAI, JSONSchema.required,
            JSONSchema.properties, JSONSchema.ty, hpos, hreq]
  · intro s raw hdv hu
    cases s with
    | mk t ps req desc dv =>
      have hdv2 : dv = some raw := hdv
      subst hdv2
      by_cases hdesc : desc = ""
      · subst hdesc
        constructor
        · simp [convertPropertySchema, JSONSchema.clearDefault,
            JSONSchema.defaultRaw, JSONSchema.ty, JSONSchema.description, hu]
        · simp [convertPropertySchema, JSONSchema.defaultRaw, JSONSchema.ty,
            JSONSchema.description, hu]
      · constructor
        · simp [convertPropertySchema, JSONSchema.clearDefault,
            JSONSchema.defaultRaw, JSONSchema.ty, JSONSchema.description,
            hdesc, hu]
        · simp [convertPropertySchema, JSONSchema.defaultRaw, JSONSchema.ty,
            JSONSchema.description, hdesc, hu]

/-- Closed witness for C8 at a concrete schema whose default value does not
parse. -/
theorem schema_translator_total_deterministic_witness :
    convertJSONSchemaToOpenAI (fun _ => none) none
      = [("type", JValue.str "object"), ("properties", JValue.obj [])] ∧
    ((convertJSONSchemaToOpenAI (fun _ => none)
        (some (.mk "object" none ["duration"] "" none))).any
      (fun kv => kv.1 == "required") = true ↔
      (JSONSchema.mk "object" none ["duration"] "" none).required ≠ []) ∧
    convertPropertySchema (fun _ => none)
        (.mk "number" none [] "seconds" (some "garbage"))
      = convertPropertySchema (fun _ => none)
          (JSONSchema.mk "number" none [] "seconds" (some "garbage")).clearDefault ∧
    (convertPropertySchema (fun _ => none)
        (.mk "number" none [] "seconds" (some "garbage"))).any
      (fun kv => kv.1 == "default") = false := by
  obtain ⟨-, hnil, hreq, hdrop⟩ :=
    schema_translator_total_deterministic (fun _ => none)
  obtain ⟨hd1, hd2⟩ :=
    hdrop (.mk "number" none [] "seconds" (some "garbage")) "garbage" rfl rfl
  exact ⟨hnil, hreq (.mk "object" none ["duration"] "" none), hd1, hd2⟩

/-- C4 counterexample: a transport response with non-success HTTP status
500 whose body decodes to a payload without an error field is treated as a
successful completion — `sendChatRequest` never inspects the status code. -/
theorem sendChatRequest_status_counterexample :
    sendChatRequest "api-key"
      (Except.ok { statusCode := 500, body := "server error page" })
      (fun _ => some { choices := [], error := none })
      = Except.ok { choices := [], error := none } := rfl

/-- C4 (amended): `sendChatRequest` returns an error exactly when the API
key is unset, the transport fails, the response body fails to decode, or
the decoded body carries an explicit error payload; the HTTP status code is
never inspected (the outcome is identical for any two status codes on the
same body), so a non-success status with a decodable error-free body is
treated as a successful completion. -/
theorem sendChatRequest_error_conditions (apiKey : String)
    (transport : Except String HTTPResponse)
    (decode : String → Option ChatResponse) :
    ((∃ e, sendChatRequest apiKey transport decode = .error e) ↔
      (apiKey = "" ∨ (∃ e, transport = .error e) ∨
       (∃ resp, transport = .ok resp ∧ decode resp.body = none) ∨
       (∃ resp result apiErr, transport = .ok resp ∧
         decode resp.body = some result ∧ result.error = some apiErr))) ∧
    (∀ s1 s2 body, sendChatRequest apiKey (.ok ⟨s1, body⟩) decode
      = sendChatRequest apiKey (.ok ⟨s2, body⟩) decode) := by
  constructor
  · by_cases hk : apiKey = ""
    · simp [sendChatRequest, hk]
    · cases transport with
      | error e => simp [sendChatRequest, hk]
      | ok resp =>
        cases hd : decode resp.body with
        | none => simp [sendChatRequest, hk, hd]
        | some result =>
          cases herr : result.error with
          | none => simp [sendChatRequest, hk, hd, herr]
          | some apiErr => simp [sendChatRequest, hk, hd, herr]
  · intro s1 s2 body
    rfl

/-- C3: when the first chat-completion request of a user turn fails (the
transport errors, or `sendChatRequest` rejects the response — for an
explicit error payload it returns `.error`, covered by an error head event
of the script), `ProcessMessage` returns an error and the history beyond
what preceded the turn contains only the appended user message: no
assistant and no tool message of the failed turn is appended. -/
theorem processMessage_first_request_fails_history {α : Type}
    (p : String → Except String α)
    (e : String → α → Except String CallToolResult)
    (fns : List FunctionDefinition)
    (script : List (Except String ChatResponse))
    (messages : List ChatMessage) (userMessage : String)
    (h : script = [] ∨ ∃ err rest, script = .error err :: rest) :
    (ProcessMessage p e fns script messages userMessage).1.isOk = false ∧
    (ProcessMessage p e fns script messages userMessage).2
      = AddUserMessage messages userMessage := by
  rcases h with h | ⟨err, rest, h⟩
  · subst h
    exact ⟨rfl, rfl⟩
  · subst h
    exact ⟨rfl, rfl⟩

/-- Closed witness for C3: an HTTP 500 surfaced as a transport-level error
on the first completion call leaves exactly the user message appended. -/
theorem processMessage_first_request_fails_history_witness :
    (ProcessMessage (fun _ => (Except.ok () : Except String Unit))
      (fun _ _ => Except.error "unused")
      [{ name := "get_network_summary" }]
      [Except.error "request failed with status 500"]
      [] "summarize network activity").1.isOk = false ∧
    (ProcessMessage (fun _ => (Except.ok () : Except String Unit))
      (fun _ _ => Except.error "unused")
      [{ name := "get_network_summary" }]
      [Except.error "request failed with status 500"]
      [] "summarize network activity").2
      = AddUserMessage [] "summarize network activity" :=
  processMessage_first_request_fails_history
    (fun _ => (Except.ok () : Except String Unit))
    (fun _ _ => Except.error "unused")
    [{ name := "get_network_summary" }]
    [Except.error "request failed with status 500"]
    [] "summarize network activity"
    (Or.inr ⟨"request failed with status 500", [], rfl⟩)

theorem ExecuteFunctions_eq_execResults {α : Type}
    (p : String → Except String α)
    (e : String → α → Except String CallToolResult)
    (fns : List FunctionDefinition) (functionCalls : List ToolCall) :
    ExecuteFunctions p e fns functionCalls
      = .ok (execResults p e fns functionCalls) := rfl

/-- One step of `handleFunctionCalls` on a successful completion outcome
whose first choice is known. -/
theorem handleFunctionCalls_cons_ok {α : Type}
    (p : String → Except String α)
    (e : String → α → Except String CallToolResult)
    (fns : List FunctionDefinition) (resp : ChatResponse)
    (rest : List (Except String ChatResponse)) (toolCalls : List ToolCall)
    (messages : List ChatMessage) (choice : Choice) (chrest : List Choice)
    (hch : resp.choices = choice :: chrest) :
    handleFunctionCalls p e fns (Except.ok resp :: rest) toolCalls messages
      = (if 0 < choice.message.toolCalls.length then
           handleFunctionCalls p e fns rest choice.message.toolCalls
             ((messages
                ++ (execResults p e fns toolCalls).map toolResultMessage)
               ++ [choice.message])
         else
           match choice.message.content with
           | some c =>
             (.ok c,
              (messages
                ++ (execResults p e fns toolCalls).map toolResultMessage)
               ++ [choice.message])
           | none =>
             (.error "no content in final response",
              (messages
                ++ (execResults p e fns toolCalls).map toolResultMessage)
               ++ [choice.message])) := by
  conv_lhs => rw [handleFunctionCalls]
  rw [ExecuteFunctions_eq_execResults]
  dsimp only
  rw [hch]

/-- One step of `ProcessMessage` on a successful first completion outcome
whose first choice is known. -/
theorem ProcessMessage_cons_ok {α : Type}
    (p : String → Except String α)
    (e : String → α → Except String CallToolResult)
    (fns : List FunctionDefinition) (resp : ChatResponse)
    (rest : List (Except String ChatResponse))
    (messages : List ChatMessage) (userMessage : String)
    (choice : Choice) (chrest : List Choice)
    (hch : resp.choices = choice :: chrest) :
    ProcessMessage p e fns (Except.ok resp :: rest) messages userMessage
      = (if 0 < choice.message.toolCalls.length then
           handleFunctionCalls p e fns rest choice.message.toolCalls
             (AddUserMessage messages userMessage ++ [choice.message])
         else
           match choice.message.content with
           | some c =>
             (.ok c, AddUserMessage messages userMessage ++ [choice.message])
           | none =>
             (.error "no content in response",
              AddUserMessage messages userMessage ++ [choice.message])) := by
  conv_lhs => rw [ProcessMessage]
  dsimp only
  rw [hch]

theorem handleFunctionCalls_cycle_count {α : Type}
    (p : String → Except String α)
    (e : String → α → Except String CallToolResult)
    (fns : List FunctionDefinition)
    (cycles : List ChatResponse) (final : ChatResponse) (c : String) :
    (∀ r ∈ cycles, respHasCalls r) → respFinalText final c →
    ∀ (toolCalls : List ToolCall) (messages : List ChatMessage),
      (handleFunctionCalls p e fns (cycles.map Except.ok ++ [Except.ok final])
        toolCalls messages).1 = .ok c ∧
      (handleFunctionCalls p e fns (cycles.map Except.ok ++ [Except.ok final])
        toolCalls messages).2.length
        = messages.length + toolCalls.length
          + (cycles.map (fun r => 1 + respBatchSize r)).sum + 1 := by
  induction cycles with
  | nil =>
    intro hcy hfin toolCalls messages
    obtain ⟨choice, chrest, hch, htc, hco⟩ := hfin
    have hstep := handleFunctionCalls_cons_ok p e fns final [] toolCalls
      messages choice chrest hch
    rw [htc] at hstep
    simp only [List.length_nil, Nat.lt_irrefl, if_false, hco] at hstep
    rw [List.map_nil, List.nil_append, hstep]
    refine ⟨rfl, ?_⟩
    simp [execResults]
    omega
  | cons r cycles ih =>
    intro hcy hfin toolCalls messages
    obtain ⟨choice, chrest, hch, htc⟩ := hcy r (List.mem_cons_self r cycles)
    have hstep := handleFunctionCalls_cons_ok p e fns r
      (cycles.map Except.ok ++ [Except.ok final]) toolCalls messages choice
      chrest hch
    rw [if_pos htc] at hstep
    rw [List.map_cons, List.cons_append, hstep]
    obtain ⟨ih1, ihlen⟩ :=
      ih (fun q hq => hcy q (List.mem_cons_of_mem r hq)) hfin
        choice.message.toolCalls
        ((messages ++ (execResults p e fns toolCalls).map toolResultMessage)
          ++ [choice.message])
    refine ⟨ih1, ?_⟩
    rw [ihlen]
    have hbatch : respBatchSize r = choice.message.toolCalls.length := by
      simp [respBatchSize, hch]
    simp [execResults, hbatch]
    omega

/-- C7: after a user turn that completes with `K` call/continue cycles of
batch sizes `N_1 .. N_K` followed by a final text response, the number of
messages appended during the turn equals 1 (user) plus, per cycle `k`, 1
assistant message carrying tool calls plus `N_k` tool results, plus 1 final
assistant text message. -/
theorem processMessage_turn_message_count {α : Type}
    (p : String → Except String α)
    (e : String → α → Except String CallToolResult)
    (fns : List FunctionDefinition)
    (messages : List ChatMessage) (userMessage : String)
    (cycles : List ChatResponse) (final : ChatResponse) (c : String) :
    (∀ r ∈ cycles, respHasCalls r) → respFinalText final c →
    (ProcessMessage p e fns (cycles.map Except.ok ++ [Except.ok final])
      messages userMessage).1 = .ok c ∧
    (ProcessMessage p e fns (cycles.map Except.ok ++ [Except.ok final])
      messages userMessage).2.length
      = messages.length + 1
        + (cycles.map (fun r => 1 + respBatchSize r)).sum + 1 := by
  cases cycles with
  | nil =>
    intro hcy hfin
    obtain ⟨choice, chrest, hch, htc, hco⟩ := hfin
    have hstep := ProcessMessage_cons_ok p e fns final [] messages
      userMessage choice chrest hch
    rw [htc] at hstep
    simp only [List.length_nil, Nat.lt_irrefl, if_false, hco] at hstep
    rw [List.map_nil, List.nil_append, hstep]
    refine ⟨rfl, ?_⟩
    simp [AddUserMessage]
  | cons r cycles =>
    intro hcy hfin
    obtain ⟨choice, chrest, hch, htc⟩ := hcy r (List.mem_cons_self r cycles)
    have hstep := ProcessMessage_cons_ok p e fns r
      (cycles.map Except.ok ++ [Except.ok final]) messages userMessage choice
      chrest hch
    rw [if_pos htc] at hstep
    rw [List.map_cons, List.cons_append, hstep]
    obtain ⟨h1, hlen⟩ := handleFunctionCalls_cycle_count p e fns cycles final
      c (fun q hq => hcy q (List.mem_cons_of_mem r hq)) hfin
      choice.message.toolCalls
      (AddUserMessage messages userMessage ++ [choice.message])
    refine ⟨h1, ?_⟩
    rw [hlen]
    have hbatch : respBatchSize r = choice.message.toolCalls.length := by
      simp [respBatchSize, hch]
    simp [AddUserMessage, hbatch]
    omega

/-- Closed witness for C7: one cycle with a batch of two tool calls, then a
final text response: 5 messages appended (1 user + 1 assistant-with-calls +
2 tool results + 1 final assistant text). -/
theorem processMessage_turn_message_count_witness :
    (ProcessMessage (fun _ => (Except.ok () : Except String Unit))
      (fun _ _ => Except.ok { content := [MCPContent.text "12 events"] })
      [{ name := "get_network_summary" }, { name := "list_connections" }]
      [Except.ok
        { choices :=
            [{ message :=
                { role := "assistant", content := none,
                  toolCalls :=
                    [⟨"id1", "function", ⟨"get_network_summary", "a"⟩⟩,
                     ⟨"id2", "function", ⟨"list_connections", "a"⟩⟩],
                  toolCallID := "", functionCall := none },
               finishReason := "tool_calls" }],
          error := none },
       Except.ok
        { choices :=
            [{ message :=
                { role := "assistant", content := some "done",
                  toolCalls := [], toolCallID := "", functionCall := none },
               finishReason := "stop" }],
          error := none }]
      [] "summarize").1 = .ok "done" ∧
    (ProcessMessage (fun _ => (Except.ok () : Except String Unit))
      (fun _ _ => Except.ok { content := [MCPContent.text "12 events"] })
      [{ name := "get_network_summary" }, { name := "list_connections" }]
      [Except.ok
        { choices :=
            [{ message :=
                { role := "assistant", content := none,
                  toolCalls :=
                    [⟨"id1", "function", ⟨"get_network_summary", "a"⟩⟩,
                     ⟨"id2", "function", ⟨"list_connections", "a"⟩⟩],
                  toolCallID := "", functionCall := none },
               finishReason := "tool_calls" }],
          error := none },
       Except.ok
        { choices :=
            [{ message :=
                { role := "assistant", content := some "done",
                  toolCalls := [], toolCallID := "", functionCall := none },
               finishReason := "stop" }],
          error := none }]
      [] "summarize").2.length = 5 := by
  have h := processMessage_turn_message_count
    (fun _ => (Except.ok () : Except String Unit))
    (fun _ _ => Except.ok { content := [MCPContent.text "12 events"] })
    [{ name := "get_network_summary" }, { name := "list_connections" }]
    [] "summarize"
    [{ choices :=
        [{ message :=
            { role := "assistant", content := none,
              toolCalls :=
                [⟨"id1", "function", ⟨"get_network_summary", "a"⟩⟩,
                 ⟨"id2", "function", ⟨"list_connections", "a"⟩⟩],
              toolCallID := "", functionCall := none },
           finishReason := "tool_calls" }],
       error := none }]
    { choices :=
        [{ message :=
            { role := "assistant", content := some "done",
              toolCalls := [], toolCallID := "", functionCall := none },
           finishReason := "stop" }],
      error := none }
    "done"
    (by
      intro r hr
      rw [List.mem_singleton] at hr
      subst hr
      exact ⟨_, [], rfl, by decide⟩)
    ⟨_, [], rfl, rfl, rfl⟩
  exact ⟨h.1, h.2.trans rfl⟩

end McpClient
